import Mathlib

/-!
Shallow embedding of the TETRA analyzer pipeline (C sources under src/) in Lean 4,
together with theorems settling the specification claims.

Conventions used throughout:
* C bytes and 32-bit words are modelled as `Nat`, with `% 2 ^ 32` (or `% 256`)
  written explicitly wherever the C arithmetic wraps.
* C `float` values are modelled as `Rat`.  Every float computation that a claim
  depends on here is exact decimal/dyadic arithmetic (subtraction of 127.5,
  sums of plus or minus 1, division by 22, small products of dyadic rationals), so the
  rational model coincides with the IEEE evaluation at every comparison the
  claims exercise.
* C `int` fields that can be negative (best offset, current channel index,
  active channel count) are modelled as `Int`.
* Buffers are `List` values; out-parameter functions return the new value.
* `get_timestamp_us` is modelled by passing the current time as an argument.
-/

/-! ### TEA1 cipher (src/src/tea1_crypto.c) -/

/-- The fixed 256-entry S-box `TEA1_SBOX` from tea1_crypto.c (byte for byte). -/
def TEA1_SBOX : List Nat :=
  [0x63, 0x7c, 0x77, 0x7b, 0xf2, 0x6b, 0x6f, 0xc5, 0x30, 0x01, 0x67, 0x2b, 0xfe, 0xd7, 0xab, 0x76,
   0xca, 0x82, 0xc9, 0x7d, 0xfa, 0x59, 0x47, 0xf0, 0xad, 0xd4, 0xa2, 0xaf, 0x9c, 0xa4, 0x72, 0xc0,
   0xb7, 0xfd, 0x93, 0x26, 0x36, 0x3f, 0xf7, 0xcc, 0x34, 0xa5, 0xe5, 0xf1, 0x71, 0xd8, 0x31, 0x15,
   0x04, 0xc7, 0x23, 0xc3, 0x18, 0x96, 0x05, 0x9a, 0x07, 0x12, 0x80, 0xe2, 0xeb, 0x27, 0xb2, 0x75,
   0x09, 0x83, 0x2c, 0x1a, 0x1b, 0x6e, 0x5a, 0xa0, 0x52, 0x3b, 0xd6, 0xb3, 0x29, 0xe3, 0x2f, 0x84,
   0x53, 0xd1, 0x00, 0xed, 0x20, 0xfc, 0xb1, 0x5b, 0x6a, 0xcb, 0xbe, 0x39, 0x4a, 0x4c, 0x58, 0xcf,
   0xd0, 0xef, 0xaa, 0xfb, 0x43, 0x4d, 0x33, 0x85, 0x45, 0xf9, 0x02, 0x7f, 0x50, 0x3c, 0x9f, 0xa8,
   0x51, 0xa3, 0x40, 0x8f, 0x92, 0x9d, 0x38, 0xf5, 0xbc, 0xb6, 0xda, 0x21, 0x10, 0xff, 0xf3, 0xd2,
   0xcd, 0x0c, 0x13, 0xec, 0x5f, 0x97, 0x44, 0x17, 0xc4, 0xa7, 0x7e, 0x3d, 0x64, 0x5d, 0x19, 0x73,
   0x60, 0x81, 0x4f, 0xdc, 0x22, 0x2a, 0x90, 0x88, 0x46, 0xee, 0xb8, 0x14, 0xde, 0x5e, 0x0b, 0xdb,
   0xe0, 0x32, 0x3a, 0x0a, 0x49, 0x06, 0x24, 0x5c, 0xc2, 0xd3, 0xac, 0x62, 0x91, 0x95, 0xe4, 0x79,
   0xe7, 0xc8, 0x37, 0x6d, 0x8d, 0xd5, 0x4e, 0xa9, 0x6c, 0x56, 0xf4, 0xea, 0x65, 0x7a, 0xae, 0x08,
   0xba, 0x78, 0x25, 0x2e, 0x1c, 0xa6, 0xb4, 0xc6, 0xe8, 0xdd, 0x74, 0x1f, 0x4b, 0xbd, 0x8b, 0x8a,
   0x70, 0x3e, 0xb5, 0x66, 0x48, 0x03, 0xf6, 0x0e, 0x61, 0x35, 0x57, 0xb9, 0x86, 0xc1, 0x1d, 0x9e,
   0xe1, 0xf8, 0x98, 0x11, 0x69, 0xd9, 0x8e, 0x94, 0x9b, 0x1e, 0x87, 0xe9, 0xce, 0x55, 0x28, 0xdf,
   0x8c, 0xa1, 0x89, 0x0d, 0xbf, 0xe6, 0x42, 0x68, 0x41, 0x99, 0x2d, 0x0f, 0xb0, 0x54, 0xbb, 0x16]

/-- S-box lookup of one byte. -/
def sbox_byte (b : Nat) : Nat := TEA1_SBOX.getD b 0

/-- Byte-wise S-box substitution of a 32-bit word.  The C walks the four bytes
of the word through a byte pointer; substituting each byte independently is
byte-order agnostic, so the word-level result is the same on any endianness. -/
def sub_bytes32 (w : Nat) : Nat :=
  sbox_byte (w % 256) |||
  (sbox_byte ((w >>> 8) % 256) <<< 8) |||
  (sbox_byte ((w >>> 16) % 256) <<< 16) |||
  (sbox_byte ((w >>> 24) % 256) <<< 24)

/-- `(x << 1) | (x >> 31)` on uint32. -/
def rotl1_32 (x : Nat) : Nat := ((x <<< 1) % 2 ^ 32) ||| (x >>> 31)

/-- `(x >> 1) | (x << 31)` on uint32. -/
def rotr1_32 (x : Nat) : Nat := (x >>> 1) ||| ((x <<< 31) % 2 ^ 32)

/-- `tea1_round`: S-box substitution, XOR with the round key, rotate left 7. -/
def tea1_round (data round_key : Nat) : Nat :=
  let d1 := sub_bytes32 data
  let d2 := d1 ^^^ round_key
  ((d2 <<< 7) % 2 ^ 32) ||| (d2 >>> 25)

/-- Big-endian load of 4 bytes at `off` (reads past the end give byte 0). -/
def load_be32 (l : List Nat) (off : Nat) : Nat :=
  (l.getD off 0 <<< 24) ||| (l.getD (off + 1) 0 <<< 16) |||
  (l.getD (off + 2) 0 <<< 8) ||| l.getD (off + 3) 0

/-- Big-endian store of a 32-bit word as 4 bytes. -/
def store_be32 (w : Nat) : List Nat :=
  [(w >>> 24) % 256, (w >>> 16) % 256, (w >>> 8) % 256, w % 256]

/-- `tea1_context_t` from tetra_analyzer.h. -/
structure tea1_context_t where
  key : List Nat
  iv : List Nat
  reduced_key : Nat
  vulnerability_mode : Bool
deriving DecidableEq, Repr

/-- `tea1_extract_reduced_key`: keep bytes 0..3 of the 80-bit key, big-endian. -/
def tea1_extract_reduced_key (full_key : List Nat) : Nat :=
  (full_key.getD 0 0 <<< 24) ||| (full_key.getD 1 0 <<< 16) |||
  (full_key.getD 2 0 <<< 8) ||| full_key.getD 3 0

/-- Vulnerable-mode key schedule: round key i is the 1-bit-rotated reduced key
XORed with `i * 0x9E3779B9` (uint32). -/
def tea1_key_schedule_vuln : Nat → Nat → Nat → List Nat
  | _, _, 0 => []
  | rk, i, n + 1 =>
    (rk ^^^ ((i * 0x9E3779B9) % 2 ^ 32)) :: tea1_key_schedule_vuln (rotl1_32 rk) (i + 1) n

/-- Full-key schedule: `k0 ^ k1 ^ k2 ^ (i * 0x9E3779B9)` with `k0` rotating
left and `k1` rotating right each round. -/
def tea1_key_schedule_full : Nat → Nat → Nat → Nat → Nat → List Nat
  | _, _, _, _, 0 => []
  | k0, k1, k2, i, n + 1 =>
    (k0 ^^^ k1 ^^^ k2 ^^^ ((i * 0x9E3779B9) % 2 ^ 32)) ::
      tea1_key_schedule_full (rotl1_32 k0) (rotr1_32 k1) k2 (i + 1) n

/-- `tea1_key_schedule`: the 32 round keys of a context. -/
def tea1_key_schedule (ctx : tea1_context_t) : List Nat :=
  if ctx.vulnerability_mode then
    tea1_key_schedule_vuln ctx.reduced_key 0 32
  else
    tea1_key_schedule_full (load_be32 ctx.key 0) (load_be32 ctx.key 4)
      ((ctx.key.getD 8 0 <<< 8) ||| ctx.key.getD 9 0) 0 32

/-- `tea1_init`: copy the 10-byte key, zero the IV, set the mode.  The C sets
`reduced_key` only in vulnerability mode and never reads it otherwise; the
model stores 0 in that case. -/
def tea1_init (key : List Nat) (use_vulnerability : Bool) : tea1_context_t :=
  { key := key.take 10,
    iv := List.replicate 8 0,
    reduced_key := if use_vulnerability then tea1_extract_reduced_key key else 0,
    vulnerability_mode := use_vulnerability }

/-- `tea1_decrypt_block`: load (s0, s1) big-endian, run the 32 rounds in
reverse (`(s0, s1) := (round s1 k[r], s0)` for r = 31 down to 0), store. -/
def tea1_decrypt_block (ctx : tea1_context_t) (input : List Nat) : List Nat :=
  let s0 := load_be32 input 0
  let s1 := load_be32 input 4
  let keys := tea1_key_schedule ctx
  let p := (List.range 32).reverse.foldl
    (fun (s : Nat × Nat) r => (tea1_round s.2 (keys.getD r 0), s.1)) (s0, s1)
  store_be32 p.1 ++ store_be32 p.2

/-- Byte-wise XOR of two equal-length byte lists. -/
def xor_bytes (a b : List Nat) : List Nat := List.zipWith (· ^^^ ·) a b

/-- One pass of the `tea1_decrypt_stream` loop, processing `n` 8-byte blocks:
decrypt the block, XOR the output with the context IV, then set the IV to the
ciphertext block just consumed. -/
def tea1_decrypt_stream_go : Nat → tea1_context_t → List Nat → List Nat × tea1_context_t
  | 0, ctx, _ => ([], ctx)
  | n + 1, ctx, input =>
    let blk := input.take 8
    let dec := tea1_decrypt_block ctx blk
    let out := xor_bytes dec ctx.iv
    let rest := tea1_decrypt_stream_go n { ctx with iv := blk } (input.drop 8)
    (out ++ rest.1, rest.2)

/-- `tea1_decrypt_stream`: processes `len / 8` whole blocks. -/
def tea1_decrypt_stream (ctx : tea1_context_t) (input : List Nat) :
    List Nat × tea1_context_t :=
  tea1_decrypt_stream_go (input.length / 8) ctx input

/-- Block `i` (8 bytes) of a byte list. -/
def byte_block (l : List Nat) (i : Nat) : List Nat := (l.drop (8 * i)).take 8

/-! ### TEA1 key recovery (src/src/tea1_crack.c) -/

/-- `test_key_candidate`: embed the 32-bit candidate as the first four bytes of
an otherwise zero 80-bit key, init in vulnerability mode, decrypt the first
ciphertext block, compare `min len 8` bytes against the known plaintext. -/
def test_key_candidate (candidate_key : Nat) (ciphertext known_plaintext : List Nat)
    (len : Nat) : Bool :=
  let test_key := store_be32 candidate_key ++ List.replicate 6 0
  let ctx := tea1_init test_key true
  let decrypted := tea1_decrypt_block ctx (ciphertext.take 8)
  let compare_len := min len 8
  decide (decrypted.take compare_len = known_plaintext.take compare_len)

/-- The brute-force loop of `tea1_brute_force_32bit`: try candidates
`c, c+1, ...` (at most `fuel` of them), returning the first one accepted. -/
def tea1_crack_search (t : Nat → Bool) : Nat → Nat → Option Nat
  | _, 0 => none
  | c, fuel + 1 => if t c then some c else tea1_crack_search t (c + 1) fuel

/-- `tea1_brute_force_32bit`: scan the first `10 ^ 6` candidates; on success the
result context is initialised from the found key, otherwise `result` is left
untouched (the C only logs in that case). -/
def tea1_brute_force_32bit (ciphertext known_plaintext : List Nat) (len : Nat)
    (result : tea1_context_t) : tea1_context_t :=
  match tea1_crack_search
      (fun c => test_key_candidate c ciphertext known_plaintext len) 0 1000000 with
  | some found_key => tea1_init (store_be32 found_key ++ List.replicate 6 0) true
  | none => result

/-- `tea1_crack_key`: reject `len < 8`, run the brute force, then report
success as `reduced_key != 0` on the (possibly untouched) result context. -/
def tea1_crack_key (ciphertext known_plaintext : List Nat) (len : Nat)
    (ctx : tea1_context_t) : Bool × tea1_context_t :=
  if len < 8 then (false, ctx)
  else
    let ctx' := tea1_brute_force_32bit ciphertext known_plaintext len ctx
    (decide (ctx'.reduced_key ≠ 0), ctx')

/-- Specification-side description of the loop: the least accepted candidate
below the budget, as a first-match search over `List.range`. -/
def first_matching_candidate (ciphertext known_plaintext : List Nat) (len : Nat) :
    Option Nat :=
  (List.range 1000000).find? (fun c => test_key_candidate c ciphertext known_plaintext len)

/-! ### DSP primitives (src/src/signal_processing.c) and the demodulator
conversion loop (src/src/tetra_demod.c, tetra_demod_process) -/

/-- `convert_uint8_to_float` from signal_processing.c: `output[i] = (float)input[i]`.
Note that this primitive performs no centering. -/
def convert_uint8_to_float (input : List Nat) : List Rat :=
  input.map (fun b => (b : Rat))

/-- `SDR_BUFFER_SIZE / 2`: the demodulator sample capacity (I/Q pairs). -/
def demod_sample_count : Nat := (16 * 16384) / 2

/-- The I/Q conversion loop inside `tetra_demod_process` (tetra_demod.c lines
56-65): `sample_pairs = min (len / 2) sample_count`, then
`i_samples[i] = iq_data[i*2] - 127.5` and `q_samples[i] = iq_data[i*2+1] - 127.5`. -/
def tetra_demod_split_iq (iq_data : List Nat) (sample_count : Nat) :
    List Rat × List Rat :=
  let sample_pairs := min (iq_data.length / 2) sample_count
  ((List.range sample_pairs).map (fun i => (iq_data.getD (i * 2) 0 : Rat) - 127.5),
   (List.range sample_pairs).map (fun i => (iq_data.getD (i * 2 + 1) 0 : Rat) - 127.5))

/-! ### Burst detector (src/src/tetra_demod.c, tetra_detect_burst)

`detect_signal_strength` is a real-valued RMS over the I/Q buffers (it involves
a square root); every claim about the detector quantifies over the power value,
so the computed power is a parameter of the embedding. -/

/-- The 22-bit training sequence `TETRA_TRAINING_SEQ`. -/
def TETRA_TRAINING_SEQ : List Nat :=
  [1, 1, 0, 0, 1, 0, 1, 0, 0, 1, 1, 1, 0, 1, 0, 0, 0, 1, 1, 0, 1, 0]

/-- `detection_params_t` (floats as rationals, ints as integers). -/
structure detection_params_t where
  min_signal_power : Rat
  strong_match_threshold : Int
  moderate_match_threshold : Int
  strong_correlation : Rat
  moderate_correlation : Rat
  lpf_cutoff : Rat
  moderate_power_multiplier : Rat
deriving DecidableEq, Repr

/-- `detection_params_reset_defaults`. -/
def detection_params_defaults : detection_params_t :=
  { min_signal_power := 8, strong_match_threshold := 20, moderate_match_threshold := 19,
    strong_correlation := 0.8, moderate_correlation := 0.75, lpf_cutoff := 0.5,
    moderate_power_multiplier := 1.2 }

/-- `detection_status_t`. -/
structure detection_status_t where
  current_signal_power : Rat
  last_match_count : Int
  last_correlation : Rat
  last_offset : Int
  burst_detected : Bool
  last_detection_time : Nat
  detection_count : Nat
deriving DecidableEq, Repr

/-- `detection_status_reset`. -/
def detection_status_reset : detection_status_t :=
  { current_signal_power := 0, last_match_count := 0, last_correlation := 0,
    last_offset := -1, burst_detected := false, last_detection_time := 0,
    detection_count := 0 }

/-- Matches at one offset: how many of the 22 positions of the bit buffer agree
with the training sequence (`demod_bits[offset + i] == TETRA_TRAINING_SEQ[i]`). -/
def burst_matches (bits : List Nat) (offset : Nat) : Nat :=
  (List.range 22).countP (fun i => bits.getD (offset + i) 0 == TETRA_TRAINING_SEQ.getD i 0)

/-- Correlation at one offset: the loop accumulates +1 per match and -1 per
mismatch, then divides by 22. -/
def burst_correlation (bits : List Nat) (offset : Nat) : Rat :=
  ((burst_matches bits offset : Rat) - ((22 : Rat) - (burst_matches bits offset : Rat))) / 22

/-- The status update performed on an accepting return of `tetra_detect_burst`. -/
def burst_status_accept (st : detection_status_t) (m : Nat) (c : Rat) (o : Int)
    (now : Nat) : detection_status_t :=
  { st with
    burst_detected := true, last_match_count := (m : Int), last_correlation := c,
    last_offset := o, last_detection_time := now,
    detection_count := st.detection_count + 1 }

/-- The status update performed on the rejecting return of `tetra_detect_burst`. -/
def burst_status_reject (st : detection_status_t) (m : Nat) (c : Rat) (o : Int) :
    detection_status_t :=
  { st with
    burst_detected := false, last_match_count := (m : Int), last_correlation := c,
    last_offset := o }

/-- The offset scan of `tetra_detect_burst`: `rem` offsets remain, starting at
`o`; `best_m`, `best_o`, `best_c` track the best match so far.  Each step
updates the best, then short-circuits on a strong accept; after the scan the
moderate acceptance and the rejection update are applied. -/
def burst_scan (bits : List Nat) (p : detection_params_t) (pow : Rat) (now : Nat)
    (st : detection_status_t) :
    Nat → Nat → Nat → Int → Rat → Bool × detection_status_t
  | _, 0, best_m, best_o, best_c =>
    if (best_m : Int) ≥ p.moderate_match_threshold ∧ best_c ≥ p.moderate_correlation ∧
        pow ≥ p.min_signal_power * p.moderate_power_multiplier then
      (true, burst_status_accept st best_m best_c best_o now)
    else
      (false, burst_status_reject st best_m best_c best_o)
  | o, rem + 1, best_m, best_o, best_c =>
    let m := burst_matches bits o
    let c := burst_correlation bits o
    let best : Nat × Int × Rat :=
      if m > best_m then (m, (o : Int), c) else (best_m, best_o, best_c)
    if (m : Int) ≥ p.strong_match_threshold ∧ c ≥ p.strong_correlation then
      (true, burst_status_accept st m c (o : Int) now)
    else
      burst_scan bits p pow now st (o + 1) rem best.1 best.2.1 best.2.2

/-- `tetra_detect_burst`.  Inputs: the demodulated bit buffer, the RMS power of
the current sample buffers, the (snapshot of the) live parameters, the shared
status, the current timestamp.  Returns the decision and the updated status.
The offset loop of the C runs for `offset < bit_count - 22`, i.e. over
`bit_count - 22` offsets starting at 0. -/
def tetra_detect_burst (bits : List Nat) (signal_power : Rat)
    (p : detection_params_t) (st : detection_status_t) (now : Nat) :
    Bool × detection_status_t :=
  if bits.length < 22 then (false, st)
  else
    let st1 := { st with current_signal_power := signal_power }
    if signal_power < p.min_signal_power then (false, st1)
    else burst_scan bits p signal_power now st1 0 (bits.length - 22) 0 (-1) 0

/-! ### Voice codec LPC synthesis (src/src/tetra_codec.c, lpc_synthesis) -/

/-- `TETRA_CODEC_SAMPLES`. -/
def TETRA_CODEC_SAMPLES : Nat := 160

/-- The two soft-limiting ifs at the end of each `lpc_synthesis` step. -/
def lpc_clamp (x : Rat) : Rat := if x > 1 then 1 else if x < -1 then -1 else x

/-- The local `float state[10] = {0}` of `lpc_synthesis`: all zeros, and never
written.  At `n = 0, k = 9` the C indexes `state[-1]`, an out-of-bounds read of
a value that is multiplied into the prediction; the model reads 0 there. -/
def lpc_state_val (_idx : Int) : Rat := 0

/-- The inner prediction loop of `lpc_synthesis` at sample `n = rev.length`,
where `rev` lists the already-produced outputs most recent first (so
`output[n - k - 1]` is `rev.getD k 0`):
`prediction += lpc_coeffs[k] * (n - k - 1 >= 0 ? output[n-k-1] : state[9 + (n-k-1)])`. -/
def lpc_prediction (coeffs rev : List Rat) : Rat :=
  (List.range 10).foldl
    (fun pred k =>
      pred + coeffs.getD k 0 *
        (if (rev.length : Int) - k - 1 ≥ 0 then rev.getD k 0
         else lpc_state_val (9 + ((rev.length : Int) - k - 1)))) 0

/-- The output loop of `lpc_synthesis`, accumulating outputs most recent first. -/
def lpc_synthesis_go (coeffs exc : List Rat) : Nat → List Rat → List Rat
  | 0, rev => rev
  | fuel + 1, rev =>
    let y := lpc_clamp (exc.getD rev.length 0 + lpc_prediction coeffs rev)
    lpc_synthesis_go coeffs exc fuel (y :: rev)

/-- `lpc_synthesis` over `length` samples. -/
def lpc_synthesis (coeffs exc : List Rat) (length : Nat) : List Rat :=
  (lpc_synthesis_go coeffs exc length []).reverse


/-! ### Real-time audio ring (src/src/audio_playback.c) -/

/-- `AUDIO_RING_BUFFER_SIZE = 8192 * 4`. -/
def AUDIO_RING_BUFFER_SIZE : Nat := 8192 * 4

/-- `audio_playback_t` (the ALSA handle, thread and mutex are outside the
model; int16 samples are modelled as integers). -/
structure audio_playback_t where
  ring_buffer : Nat → Int
  ring_write_pos : Nat
  ring_read_pos : Nat
  ring_size : Nat

/-- `audio_playback_init`: zeroed ring of `AUDIO_RING_BUFFER_SIZE` samples. -/
def audio_playback_init : audio_playback_t :=
  { ring_buffer := fun _ => 0, ring_write_pos := 0, ring_read_pos := 0,
    ring_size := AUDIO_RING_BUFFER_SIZE }

/-- One iteration of the `audio_playback_write` loop: store at the write
index, advance it mod ring size; if it caught the read index, advance the read
index by one (drop the oldest sample). -/
def audio_ring_push (p : audio_playback_t) (x : Int) : audio_playback_t :=
  let buf := fun j => if j = p.ring_write_pos then x else p.ring_buffer j
  let w := (p.ring_write_pos + 1) % p.ring_size
  if w = p.ring_read_pos then
    { ring_buffer := buf, ring_write_pos := w,
      ring_read_pos := (p.ring_read_pos + 1) % p.ring_size, ring_size := p.ring_size }
  else
    { p with ring_buffer := buf, ring_write_pos := w }

/-- `audio_playback_write`: push each sample in order (the C also returns the
number written, which always equals the input length). -/
def audio_playback_write (p : audio_playback_t) (samples : List Int) : audio_playback_t :=
  samples.foldl audio_ring_push p

/-- The available-samples computation of `playback_thread_func`. -/
def audio_ring_available (p : audio_playback_t) : Nat :=
  if p.ring_read_pos ≤ p.ring_write_pos then p.ring_write_pos - p.ring_read_pos
  else p.ring_size - p.ring_read_pos + p.ring_write_pos

/-- Everything the consumer thread can read, in the order it reads it: it
repeatedly takes `ring_buffer[ring_read_pos]` and steps the read index mod the
ring size. -/
def audio_ring_contents (p : audio_playback_t) : List Int :=
  (List.range (audio_ring_available p)).map
    (fun i => p.ring_buffer ((p.ring_read_pos + i) % p.ring_size))

/-- The states reachable from `audio_playback_init`: ring size 32768 and both
indices inside the ring. -/
def audio_ring_valid (p : audio_playback_t) : Prop :=
  p.ring_size = 32768 ∧ p.ring_write_pos < 32768 ∧ p.ring_read_pos < 32768

/-! ### Control-channel PDU parser (src/src/control_channel.c) -/

/-- `ctrl_msg_type_t`. -/
inductive ctrl_msg_type_t where
  | channel_grant
  | channel_release
  | registration
  | group_call
  | unit_to_unit
  | emergency
  | status_update
  | affiliation
  | unknown
deriving DecidableEq, Repr

/-- `ctrl_message_t`. -/
structure ctrl_message_t where
  type : ctrl_msg_type_t
  talk_group_id : Nat
  source_id : Nat
  dest_id : Nat
  channel_freq : Nat
  encrypted : Bool
  emergency : Bool
  timestamp : Nat
deriving DecidableEq, Repr

/-- The bits-to-bytes packing loop of `decode_control_channel_data`: bit `i`
of the input becomes bit `7 - i % 8` of byte `i / 8` when it is nonzero. -/
def bits_to_bytes (bits : List Nat) : List Nat :=
  (List.range ((bits.length + 7) / 8)).map (fun j =>
    (List.range 8).foldl (fun byte b =>
      if 8 * j + b < bits.length ∧ bits.getD (8 * j + b) 0 ≠ 0 then
        byte ||| (1 <<< (7 - b))
      else byte) 0)

/-- `extract_bits` (identical in control_channel.c and tetra_codec.c): MSB-first
field extraction from a byte array. -/
def extract_bits (data : List Nat) (start_bit num_bits : Nat) : Nat :=
  (List.range num_bits).foldl (fun result i =>
    if (data.getD ((start_bit + i) / 8) 0).testBit (7 - (start_bit + i) % 8) then
      result ||| (1 <<< (num_bits - 1 - i))
    else result) 0

/-- The message produced by the `memset` plus timestamp plus UNKNOWN tagging at
the top of `decode_control_channel_data`. -/
def ctrl_message_unknown (now : Nat) : ctrl_message_t :=
  { type := .unknown, talk_group_id := 0, source_id := 0, dest_id := 0,
    channel_freq := 0, encrypted := false, emergency := false, timestamp := now }

/-- The 8-bit PDU type that `decode_control_channel_data` dispatches on. -/
def control_pdu_type (bits : List Nat) : Nat :=
  extract_bits (bits_to_bytes bits) 0 8

/-- `decode_control_channel_data`.  `msg` is the caller-provided out-parameter:
the C returns `false` without touching it when `bit_count < 64`; on all other
paths the message is fully rebuilt from zero. -/
def decode_control_channel_data (bits : List Nat) (now : Nat) (msg : ctrl_message_t) :
    Bool × ctrl_message_t :=
  if bits.length < 64 then (false, msg)
  else
    let base := ctrl_message_unknown now
    let bytes := bits_to_bytes bits
    let pdu_type := extract_bits bytes 0 8
    if pdu_type = 1 then
      (true, { base with
        type := .channel_grant,
        talk_group_id := extract_bits bytes 8 16,
        source_id := extract_bits bytes 24 24,
        channel_freq := 420000000 + extract_bits bytes 48 12 * 25000,
        encrypted := extract_bits bytes 60 1 != 0,
        emergency := extract_bits bytes 61 1 != 0 })
    else if pdu_type = 2 then
      (true, { base with
        type := .channel_release,
        talk_group_id := extract_bits bytes 8 16 })
    else if pdu_type = 3 then
      (true, { base with
        type := .group_call,
        talk_group_id := extract_bits bytes 8 16,
        source_id := extract_bits bytes 24 24,
        emergency := extract_bits bytes 48 1 != 0 })
    else if pdu_type = 4 then
      (true, { base with
        type := .unit_to_unit,
        source_id := extract_bits bytes 8 24,
        dest_id := extract_bits bytes 32 24,
        encrypted := extract_bits bytes 56 1 != 0 })
    else if pdu_type = 5 then
      (true, { base with
        type := .registration,
        source_id := extract_bits bytes 8 24,
        talk_group_id := extract_bits bytes 32 16 })
    else if pdu_type = 6 then
      (true, { base with
        type := .emergency,
        source_id := extract_bits bytes 8 24,
        talk_group_id := extract_bits bytes 32 16,
        emergency := true })
    else if pdu_type = 7 then
      (true, { base with
        type := .affiliation,
        source_id := extract_bits bytes 8 24,
        talk_group_id := extract_bits bytes 32 16 })
    else if pdu_type = 8 then
      (true, { base with
        type := .status_update,
        source_id := extract_bits bytes 8 24 })
    else
      (false, base)

/-! ### Trunking channel manager (src/src/trunking.c)

Timestamps (`get_timestamp_us`) are passed in as `now`; the model assumes the
monotone clock of the C (uint64 microseconds), so elapsed times are natural
subtractions. -/

/-- `talk_group_t`. -/
structure talk_group_t where
  id : Nat
  name : String
  monitored : Bool
  call_count : Nat
  last_activity : Nat
  priority : Int
deriving DecidableEq, Repr

/-- `voice_channel_t` (the per-slot demodulator pointer is outside the model;
it is never touched by the operations below). -/
structure voice_channel_t where
  frequency : Nat
  talk_group_id : Nat
  source_id : Nat
  active : Bool
  encrypted : Bool
  grant_time : Nat
  last_update : Nat
  signal_strength : Rat
deriving DecidableEq, Repr

/-- `trunking_config_t`. -/
structure trunking_config_t where
  enabled : Bool
  control_channel_freq : Nat
  auto_follow : Bool
  record_all : Bool
  priority_threshold : Int
  hold_time_ms : Nat
  emergency_override : Bool
deriving DecidableEq, Repr

/-- `channel_history_entry_t`. -/
structure channel_history_entry_t where
  timestamp : Nat
  talk_group_id : Nat
  frequency : Nat
  source_id : Nat
  duration_ms : Nat
deriving DecidableEq, Repr

/-- `channel_manager_t` (mutexes, SDR handle and demodulator pointers are
outside the model). -/
structure channel_manager_t where
  config : trunking_config_t
  last_control_msg_time : Nat
  control_msg_count : Nat
  talk_groups : List talk_group_t
  voice_channels : List voice_channel_t
  active_channel_count : Int
  current_channel_idx : Int
  current_frequency : Nat
  history : List channel_history_entry_t
  history_head : Nat
  history_count : Nat
  total_calls : Nat
  emergency_calls : Nat
  encrypted_calls : Nat
deriving DecidableEq, Repr

/-- An all-zero voice slot (from the `calloc` of `channel_manager_init`). -/
def voice_channel_zero : voice_channel_t :=
  { frequency := 0, talk_group_id := 0, source_id := 0, active := false,
    encrypted := false, grant_time := 0, last_update := 0, signal_strength := 0 }

/-- An all-zero history entry (from the `calloc` of `channel_manager_init`). -/
def channel_history_entry_zero : channel_history_entry_t :=
  { timestamp := 0, talk_group_id := 0, frequency := 0, source_id := 0, duration_ms := 0 }

/-- `MAX_ACTIVE_CHANNELS`. -/
def MAX_ACTIVE_CHANNELS : Nat := 16

/-- `CHANNEL_HISTORY_SIZE`. -/
def CHANNEL_HISTORY_SIZE : Nat := 100

/-- `channel_manager_init`: zeroed state, current frequency at the control
channel, no followed slot. -/
def channel_manager_init (config : trunking_config_t) : channel_manager_t :=
  { config := config, last_control_msg_time := 0, control_msg_count := 0,
    talk_groups := [],
    voice_channels := List.replicate MAX_ACTIVE_CHANNELS voice_channel_zero,
    active_channel_count := 0, current_channel_idx := -1,
    current_frequency := config.control_channel_freq,
    history := List.replicate CHANNEL_HISTORY_SIZE channel_history_entry_zero,
    history_head := 0, history_count := 0,
    total_calls := 0, emergency_calls := 0, encrypted_calls := 0 }

/-- `channel_manager_tune_to_channel`: records the new frequency (the SDR call
is a logging placeholder in the C). -/
def channel_manager_tune_to_channel (mgr : channel_manager_t) (frequency : Nat) :
    channel_manager_t :=
  { mgr with current_frequency := frequency }

/-- `channel_manager_add_talk_group` (ignoring the returned index). -/
def channel_manager_add_talk_group (mgr : channel_manager_t) (id : Nat) (name : String)
    (monitored : Bool) (priority : Int) : channel_manager_t :=
  if mgr.talk_groups.length ≥ 256 then mgr
  else
    { mgr with
      talk_groups := mgr.talk_groups ++
        [{ id := id, name := name, monitored := monitored, call_count := 0,
           last_activity := 0, priority := priority }] }

/-- The grant / group-call arm of the `switch` in
`channel_manager_process_control_message`: bump statistics, decide whether to
follow, and on follow claim the first inactive slot, bump the active count,
point the current index at it and retune. -/
def channel_manager_handle_grant (now : Nat) (msg : ctrl_message_t)
    (tg : Option talk_group_t) (mgr : channel_manager_t) : channel_manager_t :=
  let mgr := { mgr with
    total_calls := mgr.total_calls + 1,
    emergency_calls := mgr.emergency_calls + (if msg.emergency then 1 else 0),
    encrypted_calls := mgr.encrypted_calls + (if msg.encrypted then 1 else 0) }
  let should_follow :=
    (mgr.config.emergency_override && msg.emergency) ||
    (match tg with
     | some tg => tg.monitored && decide (tg.priority ≥ mgr.config.priority_threshold)
     | none => false) ||
    mgr.config.record_all
  if should_follow && mgr.config.auto_follow && decide (msg.channel_freq > 0) then
    match mgr.voice_channels.findIdx? (fun ch => !ch.active) with
    | some slot =>
      let ch : voice_channel_t :=
        { frequency := msg.channel_freq, talk_group_id := msg.talk_group_id,
          source_id := msg.source_id, active := true, encrypted := msg.encrypted,
          grant_time := now, last_update := now, signal_strength := 0 }
      let mgr := { mgr with
        voice_channels := mgr.voice_channels.set slot ch,
        active_channel_count := mgr.active_channel_count + 1,
        current_channel_idx := (slot : Int) }
      channel_manager_tune_to_channel mgr msg.channel_freq
    | none => mgr
  else mgr

/-- The release arm: the first active slot with the matching talk group is
marked inactive and the active count is decremented; if it was the followed
slot, retune to the control channel and clear the index. -/
def channel_manager_handle_release (msg : ctrl_message_t) (mgr : channel_manager_t) :
    channel_manager_t :=
  match mgr.voice_channels.findIdx?
      (fun ch => ch.active && ch.talk_group_id == msg.talk_group_id) with
  | some i =>
    let ch := mgr.voice_channels.getD i voice_channel_zero
    let mgr := { mgr with
      voice_channels := mgr.voice_channels.set i { ch with active := false },
      active_channel_count := mgr.active_channel_count - 1 }
    if mgr.current_channel_idx = (i : Int) then
      { channel_manager_tune_to_channel mgr mgr.config.control_channel_freq with
        current_channel_idx := -1 }
    else mgr
  | none => mgr

/-- `channel_manager_process_control_message` at time `now`. -/
def channel_manager_process_control_message (now : Nat) (mgr : channel_manager_t)
    (msg : ctrl_message_t) : channel_manager_t :=
  let mgr := { mgr with
    last_control_msg_time := now, control_msg_count := mgr.control_msg_count + 1 }
  let tg := mgr.talk_groups.find? (fun tg => tg.id == msg.talk_group_id)
  let mgr :=
    match mgr.talk_groups.findIdx? (fun tg => tg.id == msg.talk_group_id) with
    | some i =>
      let tgi := mgr.talk_groups.getD i
        { id := 0, name := "", monitored := false, call_count := 0,
          last_activity := 0, priority := 0 }
      { mgr with
        talk_groups := mgr.talk_groups.set i
          { tgi with last_activity := now, call_count := tgi.call_count + 1 } }
    | none => mgr
  match msg.type with
  | .channel_grant => channel_manager_handle_grant now msg tg mgr
  | .group_call => channel_manager_handle_grant now msg tg mgr
  | .channel_release => channel_manager_handle_release msg mgr
  | .emergency => { mgr with emergency_calls := mgr.emergency_calls + 1 }
  | _ => mgr

/-- One tick of `channel_monitor_thread` at time `now`: the control-channel
timeout warning (which resets the timer), then the expiry sweep.  The sweep
iterates `i` over `0 <= i < active_channel_count` only, and on expiry marks the
slot inactive and appends a history entry, without decrementing
`active_channel_count` (trunking.c lines 31-54). -/
def channel_monitor_tick (now : Nat) (mgr : channel_manager_t) : channel_manager_t :=
  let mgr :=
    if now - mgr.last_control_msg_time > 5000 * 1000 then
      { mgr with last_control_msg_time := now }
    else mgr
  (List.range mgr.active_channel_count.toNat).foldl (fun m i =>
    let ch := m.voice_channels.getD i voice_channel_zero
    if ch.active ∧ now - ch.last_update > m.config.hold_time_ms * 1000 then
      let m := { m with voice_channels := m.voice_channels.set i { ch with active := false } }
      let entry : channel_history_entry_t :=
        { timestamp := ch.grant_time, talk_group_id := ch.talk_group_id,
          frequency := ch.frequency, source_id := ch.source_id,
          duration_ms := (now - ch.grant_time) / 1000 }
      { m with
        history := m.history.set m.history_head entry,
        history_head := (m.history_head + 1) % CHANNEL_HISTORY_SIZE,
        history_count := if m.history_count < CHANNEL_HISTORY_SIZE then
          m.history_count + 1 else m.history_count }
    else m) mgr

/-- The number of voice slots whose active flag is set. -/
def count_active_channels (mgr : channel_manager_t) : Nat :=
  (mgr.voice_channels.filter (fun ch => ch.active)).length

/-! ### Concrete inputs used by the counterexample and demonstration theorems -/

/-- An all-zero 8-byte ciphertext block. -/
def c3_ciphertext : List Nat := List.replicate 8 0

/-- The decryption of `c3_ciphertext` under the candidate key 0 (checked by
`rfl` in the theorems below), so that candidate 0 is a true known-plaintext
match. -/
def c3_plaintext : List Nat := [218, 222, 243, 231, 161, 67, 125, 20]

/-- A caller context for `tea1_crack_key` whose reduced-key field is zero. -/
def c3_caller_ctx : tea1_context_t := tea1_init (List.replicate 10 0) true

/-- Trunking configuration for the channel-count scenario: record-all and
auto-follow on, hold time 1000 ms. -/
def c1_config : trunking_config_t :=
  { enabled := true, control_channel_freq := 425000000, auto_follow := true,
    record_all := true, priority_threshold := 0, hold_time_ms := 1000,
    emergency_override := false }

/-- A plain (not encrypted, not emergency) channel grant for talk group 1000. -/
def c1_grant_msg : ctrl_message_t :=
  { type := .channel_grant, talk_group_id := 1000, source_id := 42, dest_id := 0,
    channel_freq := 420025000, encrypted := false, emergency := false, timestamp := 0 }

/-- Manager state after the grant is processed at t = 1000 us. -/
def c1_mgr_after_grant : channel_manager_t :=
  channel_manager_process_control_message 1000 (channel_manager_init c1_config) c1_grant_msg

/-- Manager state after one monitor tick at t = 1001001 us, i.e. one
microsecond past the hold time of the granted slot. -/
def c1_mgr_after_tick : channel_manager_t := channel_monitor_tick 1001001 c1_mgr_after_grant

/-- LPC coefficients a = (1, 0, ..., 0). -/
def c6_coeffs : List Rat := 1 :: List.replicate 9 0

/-- An all-zero excitation frame. -/
def c6_exc : List Rat := List.replicate 160 0

/-- A previous-frame output whose last sample is 1. -/
def c6_prev : List Rat := List.replicate 159 0 ++ [1]

/-- A previously parsed channel-grant message sitting in the out-parameter. -/
def c9_prior_msg : ctrl_message_t :=
  { type := .channel_grant, talk_group_id := 1, source_id := 2, dest_id := 3,
    channel_freq := 4, encrypted := true, emergency := true, timestamp := 0 }

/-- The recurrence actually satisfied by `lpc_synthesis`: each output is the
clamped sum of the excitation and the prediction, where terms reaching before
the frame start read 0 (the zero-initialised local `state` array). -/
def lpc_recurrence (coeffs exc ys : List Rat) (n : Nat) : Prop :=
  ys.getD n 0 = lpc_clamp (exc.getD n 0 +
    ((List.range 10).map (fun k =>
      coeffs.getD k 0 * (if k + 1 ≤ n then ys.getD (n - k - 1) 0 else 0))).sum)

/-- The recurrence asserted by the claim: terms reaching before the frame
start read the previous frame output samples. -/
def lpc_recurrence_prev (coeffs exc prev ys : List Rat) (n : Nat) : Prop :=
  ys.getD n 0 = lpc_clamp (exc.getD n 0 +
    ((List.range 10).map (fun k =>
      coeffs.getD k 0 * (if k + 1 ≤ n then ys.getD (n - k - 1) 0
        else prev.getD (160 + n - k - 1) 0))).sum)

/-! ## Theorems -/

/-! ### Small list helpers -/

theorem getD_map_range {α : Type} (f : Nat → α) (n k : Nat) (d : α) (h : k < n) :
    ((List.range n).map f).getD k d = f k := by
  rw [List.getD_eq_getElem _ _ (by simpa using h)]
  simp

theorem getD_take_eq {α : Type} (l : List α) (n i : Nat) (d : α) (h : i < n) :
    (l.take n).getD i d = l.getD i d := by
  simp [List.getD_eq_getElem?_getD, List.getElem?_take, h]

/-! ### Claim C10 -/

/-- Claim C10: with fewer than 22 buffered bits, `tetra_detect_burst` returns
false immediately and leaves the shared detection status entirely unchanged
(no power update, no rejection record, no counters). -/
theorem claim_C10 (bits : List Nat) (signal_power : Rat) (p : detection_params_t)
    (st : detection_status_t) (now : Nat) (h : bits.length < 22) :
    tetra_detect_burst bits signal_power p st now = (false, st) := by
  simp [tetra_detect_burst, h]

/-- Witness for claim C10 at a concrete 3-bit buffer. -/
theorem claim_C10_witness :
    tetra_detect_burst [1, 0, 1] 10 detection_params_defaults detection_status_reset 5 =
      (false, detection_status_reset) :=
  claim_C10 [1, 0, 1] 10 detection_params_defaults detection_status_reset 5 (by decide)

/-! ### Claim C1 -/

/-- Claim C1 (code bug demonstration): after a grant is followed
(`active_channel_count = 1`, one active slot) a monitor tick past the hold
time retires the slot but leaves `active_channel_count` at 1, so the count no
longer equals the number of slots with the active flag set. -/
theorem claim_C1 :
    c1_mgr_after_grant.active_channel_count = 1 ∧
    count_active_channels c1_mgr_after_grant = 1 ∧
    c1_mgr_after_tick.active_channel_count = 1 ∧
    count_active_channels c1_mgr_after_tick = 0 := by
  decide

/-! ### Claim C8 -/

/-- Counterexample for claim C8 as stated: the conversion primitive
`convert_uint8_to_float` maps byte 0 to 0.0, not to the centered 0 - 127.5. -/
theorem claim_C8_counterexample :
    convert_uint8_to_float [0] ≠ [(0 : Rat) - 127.5] := by
  simp only [convert_uint8_to_float, List.map_cons, List.map_nil, Nat.cast_zero, ne_eq,
    List.cons.injEq, and_true]
  norm_num

/-- Claim C8 as amended: the centering by 127.5 is performed by the inline
conversion loop of `tetra_demod_process`, which fills the two buffers of
length `min (len / 2) sample_count` with `iq_data[2k] - 127.5` and
`iq_data[2k+1] - 127.5`. -/
theorem claim_C8_amended (iq_data : List Nat) (k : Nat)
    (h : k < min (iq_data.length / 2) demod_sample_count) :
    (tetra_demod_split_iq iq_data demod_sample_count).1.length =
      min (iq_data.length / 2) demod_sample_count ∧
    (tetra_demod_split_iq iq_data demod_sample_count).2.length =
      min (iq_data.length / 2) demod_sample_count ∧
    (tetra_demod_split_iq iq_data demod_sample_count).1.getD k 0 =
      (iq_data.getD (k * 2) 0 : Rat) - 127.5 ∧
    (tetra_demod_split_iq iq_data demod_sample_count).2.getD k 0 =
      (iq_data.getD (k * 2 + 1) 0 : Rat) - 127.5 := by
  refine ⟨by simp [tetra_demod_split_iq], by simp [tetra_demod_split_iq], ?_, ?_⟩
  · show ((List.range _).map _).getD k 0 = _
    rw [getD_map_range _ _ _ _ h]
  · show ((List.range _).map _).getD k 0 = _
    rw [getD_map_range _ _ _ _ h]

/-- Witness for claim C8 at a concrete 4-byte interleaved buffer. -/
theorem claim_C8_witness :
    (tetra_demod_split_iq [0, 255, 10, 20] demod_sample_count).1.getD 1 0 =
      (10 : Rat) - 127.5 ∧
    (tetra_demod_split_iq [0, 255, 10, 20] demod_sample_count).2.getD 1 0 =
      (20 : Rat) - 127.5 :=
  ⟨(claim_C8_amended [0, 255, 10, 20] 1 (by decide)).2.2.1,
   (claim_C8_amended [0, 255, 10, 20] 1 (by decide)).2.2.2⟩

/-! ### Claim C9 -/

/-- Counterexample for claim C9 as stated: on a too-short bit vector (here the
empty one) the decoder returns false without touching the out-parameter, so
the returned message is neither tagged UNKNOWN nor stamped with the current
timestamp. -/
theorem claim_C9_counterexample :
    ([] : List Nat).length < 64 ∧
    (decode_control_channel_data [] 99 c9_prior_msg).2.type ≠ ctrl_msg_type_t.unknown ∧
    (decode_control_channel_data [] 99 c9_prior_msg).2.timestamp ≠ 99 := by
  decide

/-- Claim C9 as amended: on an unrecognised 8-bit PDU type (with at least 64
bits of input) the decoder returns false with a message whose type is UNKNOWN,
whose timestamp is the current time, and whose other fields are all zero; on a
too-short bit vector (fewer than 64 bits) it returns false leaving the
caller-provided message untouched. -/
theorem claim_C9_amended (bits : List Nat) (now : Nat) (msg : ctrl_message_t) :
    (bits.length < 64 → decode_control_channel_data bits now msg = (false, msg)) ∧
    (64 ≤ bits.length → (control_pdu_type bits = 0 ∨ 9 ≤ control_pdu_type bits) →
      decode_control_channel_data bits now msg = (false, ctrl_message_unknown now)) := by
  constructor
  · intro h
    simp [decode_control_channel_data, h]
  · intro h hp
    have h1 : ¬ bits.length < 64 := by omega
    unfold control_pdu_type at hp
    have h2 : extract_bits (bits_to_bytes bits) 0 8 ≠ 1 := by omega
    have h3 : extract_bits (bits_to_bytes bits) 0 8 ≠ 2 := by omega
    have h4 : extract_bits (bits_to_bytes bits) 0 8 ≠ 3 := by omega
    have h5 : extract_bits (bits_to_bytes bits) 0 8 ≠ 4 := by omega
    have h6 : extract_bits (bits_to_bytes bits) 0 8 ≠ 5 := by omega
    have h7 : extract_bits (bits_to_bytes bits) 0 8 ≠ 6 := by omega
    have h8 : extract_bits (bits_to_bytes bits) 0 8 ≠ 7 := by omega
    have h9 : extract_bits (bits_to_bytes bits) 0 8 ≠ 8 := by omega
    simp [decode_control_channel_data, h1, h2, h3, h4, h5, h6, h7, h8, h9]

/-- Witness for claim C9: a 3-bit vector is returned unparsed, and 64 zero
bits (PDU type 0) produce the tagged UNKNOWN message with the call timestamp. -/
theorem claim_C9_witness :
    decode_control_channel_data [1, 1, 0] 5 c9_prior_msg = (false, c9_prior_msg) ∧
    decode_control_channel_data (List.replicate 64 0) 7 c9_prior_msg =
      (false, ctrl_message_unknown 7) :=
  ⟨(claim_C9_amended [1, 1, 0] 5 c9_prior_msg).1 (by decide),
   (claim_C9_amended (List.replicate 64 0) 7 c9_prior_msg).2 (by decide) (by decide)⟩

/-! ### Claim C5 -/

/-- Witness-independent helper: the first four bytes determine the reduced key. -/
theorem tea1_extract_reduced_key_take (k1 k2 : List Nat) (h : k1.take 4 = k2.take 4) :
    tea1_extract_reduced_key k1 = tea1_extract_reduced_key k2 := by
  have hb : ∀ i, i < 4 → k1.getD i 0 = k2.getD i 0 := by
    intro i hi
    have h2 : (k1.take 4).getD i 0 = (k2.take 4).getD i 0 := by rw [h]
    rwa [getD_take_eq k1 4 i 0 hi, getD_take_eq k2 4 i 0 hi] at h2
  unfold tea1_extract_reduced_key
  rw [hb 0 (by omega), hb 1 (by omega), hb 2 (by omega), hb 3 (by omega)]

/-- Claim C5: in vulnerability mode, block decryption depends only on key
bytes 0..3: two contexts initialised from 80-bit keys agreeing on those bytes
decrypt every input block identically.  (Determinism over (ciphertext, key,
mode) is definitional here: the embedding is a pure function of exactly those
arguments.) -/
theorem claim_C5 (k1 k2 input : List Nat) (h : k1.take 4 = k2.take 4) :
    tea1_decrypt_block (tea1_init k1 true) input =
      tea1_decrypt_block (tea1_init k2 true) input := by
  have hred : tea1_extract_reduced_key k1 = tea1_extract_reduced_key k2 :=
    tea1_extract_reduced_key_take k1 k2 h
  have hks : tea1_key_schedule (tea1_init k1 true) = tea1_key_schedule (tea1_init k2 true) := by
    simp [tea1_key_schedule, tea1_init, hred]
  simp [tea1_decrypt_block, hks]

/-- Witness for claim C5: keys agreeing on bytes 0..3 but differing in bytes
4..9 decrypt the block 0..7 identically. -/
theorem claim_C5_witness :
    tea1_decrypt_block (tea1_init [1, 2, 3, 4, 5, 6, 7, 8, 9, 10] true)
        [0, 1, 2, 3, 4, 5, 6, 7] =
      tea1_decrypt_block (tea1_init [1, 2, 3, 4, 0, 0, 0, 0, 0, 0] true)
        [0, 1, 2, 3, 4, 5, 6, 7] :=
  claim_C5 [1, 2, 3, 4, 5, 6, 7, 8, 9, 10] [1, 2, 3, 4, 0, 0, 0, 0, 0, 0]
    [0, 1, 2, 3, 4, 5, 6, 7] (by decide)

/-! ### Claim C3 -/

/-- Reassembling a 32-bit word from its big-endian byte store recovers it. -/
theorem store_be32_extract (k : Nat) (hk : k < 2 ^ 32) :
    tea1_extract_reduced_key (store_be32 k ++ List.replicate 6 0) = k := by
  unfold tea1_extract_reduced_key store_be32
  simp only [List.cons_append, List.getD_cons_zero, List.getD_cons_succ]
  have h256 : (256 : Nat) = 2 ^ 8 := by norm_num
  apply Nat.eq_of_testBit_eq
  intro i
  simp only [h256, Nat.testBit_or, Nat.testBit_shiftLeft, Nat.testBit_mod_two_pow,
    Nat.testBit_shiftRight]
  rcases Nat.lt_or_ge i 8 with h1 | h1
  · simp [show ¬ 24 ≤ i by omega, show ¬ 16 ≤ i by omega, show ¬ 8 ≤ i by omega, h1]
  · rcases Nat.lt_or_ge i 16 with h2 | h2
    · have he : 8 + (i - 8) = i := by omega
      simp [show ¬ 24 ≤ i by omega, show ¬ 16 ≤ i by omega, h1, show i - 8 < 8 by omega, he,
        show ¬ i < 8 by omega]
    · rcases Nat.lt_or_ge i 24 with h3 | h3
      · have he : 16 + (i - 16) = i := by omega
        simp [show ¬ 24 ≤ i by omega, h2, show i - 16 < 8 by omega, he,
          show ¬ i < 8 by omega, show ¬ i - 8 < 8 by omega]
      · rcases Nat.lt_or_ge i 32 with h4 | h4
        · have he : 24 + (i - 24) = i := by omega
          simp [h3, show i - 24 < 8 by omega, he, show ¬ i < 8 by omega,
            show ¬ i - 8 < 8 by omega, show ¬ i - 16 < 8 by omega]
        · have hfk : k.testBit i = false := by
            apply Nat.testBit_lt_two_pow
            calc k < 2 ^ 32 := hk
              _ ≤ 2 ^ i := Nat.pow_le_pow_right (by omega) h4
          simp [hfk, show ¬ i < 8 by omega, show ¬ i - 8 < 8 by omega,
            show ¬ i - 16 < 8 by omega, show ¬ i - 24 < 8 by omega]

/-- The brute-force loop is a first-match search over the candidate range. -/
theorem tea1_crack_search_eq_find (t : Nat → Bool) :
    ∀ fuel c, tea1_crack_search t c fuel = (List.range' c fuel).find? t := by
  intro fuel
  induction fuel with
  | zero => intro c; simp [tea1_crack_search]
  | succ n ih =>
    intro c
    rw [List.range'_succ c n 1]
    rw [List.find?_cons]
    unfold tea1_crack_search
    rcases hc : t c with _ | _ <;> simp [hc, ih]

/-- `tea1_brute_force_32bit`, restated through the first-match search. -/
theorem tea1_brute_force_32bit_eq (ciphertext known_plaintext : List Nat) (len : Nat)
    (result : tea1_context_t) :
    tea1_brute_force_32bit ciphertext known_plaintext len result =
      match first_matching_candidate ciphertext known_plaintext len with
      | some k => tea1_init (store_be32 k ++ List.replicate 6 0) true
      | none => result := by
  have h : tea1_crack_search
      (fun c => test_key_candidate c ciphertext known_plaintext len) 0 1000000 =
      first_matching_candidate ciphertext known_plaintext len := by
    unfold first_matching_candidate
    rw [tea1_crack_search_eq_find _ 1000000 0, ← List.range_eq_range' 1000000]
  unfold tea1_brute_force_32bit
  rw [h]

/-- Claim C3 as amended: `tea1_crack_key` rejects `len < 8`; otherwise it finds
the least candidate below the `10 ^ 6` budget whose vulnerable-mode decryption
of the first ciphertext block matches the known plaintext, initialises the
result context from that key, and returns `found_key != 0` - so a successful
recovery of the all-zero reduced key is reported as not found.  When no
candidate matches, the context is left untouched and the call returns whether
the caller-provided reduced-key field was already nonzero. -/
theorem claim_C3_amended (ciphertext known_plaintext : List Nat) (len : Nat)
    (ctx : tea1_context_t) :
    tea1_crack_key ciphertext known_plaintext len ctx =
      if len < 8 then (false, ctx)
      else
        match first_matching_candidate ciphertext known_plaintext len with
        | some k => (decide (k ≠ 0), tea1_init (store_be32 k ++ List.replicate 6 0) true)
        | none => (decide (ctx.reduced_key ≠ 0), ctx) := by
  by_cases hl : len < 8
  · simp [tea1_crack_key, hl]
  · unfold tea1_crack_key
    rw [if_neg hl, if_neg hl]
    rw [tea1_brute_force_32bit_eq]
    cases hk : first_matching_candidate ciphertext known_plaintext len with
    | none => rfl
    | some k =>
      have hklt : k < 2 ^ 32 := by
        unfold first_matching_candidate at hk
        have := List.mem_range.mp (List.mem_of_find?_eq_some hk)
        omega
      have hred : (tea1_init (store_be32 k ++ List.replicate 6 0) true).reduced_key = k := by
        simp only [tea1_init]
        rw [if_pos trivial]
        exact store_be32_extract k hklt
      show (decide ((tea1_init (store_be32 k ++ List.replicate 6 0) true).reduced_key ≠ 0),
          tea1_init (store_be32 k ++ List.replicate 6 0) true) =
        (decide (k ≠ 0), tea1_init (store_be32 k ++ List.replicate 6 0) true)
      rw [hred]

set_option maxRecDepth 100000 in
/-- Counterexample for claim C3 as stated: candidate 0 is a true match (its
decryption of the ciphertext block reproduces the known plaintext), yet
`tea1_crack_key` reports not-found, because success is tested as
`reduced_key != 0`. -/
theorem claim_C3_counterexample :
    test_key_candidate 0 c3_ciphertext c3_plaintext 8 = true ∧
    (tea1_crack_key c3_ciphertext c3_plaintext 8 c3_caller_ctx).1 = false ∧
    (tea1_crack_key c3_ciphertext c3_plaintext 8 c3_caller_ctx).2.reduced_key = 0 := by
  decide

/-! ### Claim C2 -/

theorem tea1_decrypt_block_length (ctx : tea1_context_t) (inp : List Nat) :
    (tea1_decrypt_block ctx inp).length = 8 := by
  simp [tea1_decrypt_block, store_be32]

/-- Block decryption never reads the context IV. -/
theorem tea1_decrypt_block_iv (ctx : tea1_context_t) (v inp : List Nat) :
    tea1_decrypt_block { ctx with iv := v } inp = tea1_decrypt_block ctx inp := rfl

theorem xor_bytes_length (a b : List Nat) :
    (xor_bytes a b).length = min a.length b.length := by
  simp [xor_bytes]

theorem byte_block_zero (l : List Nat) : byte_block l 0 = l.take 8 := by
  simp [byte_block]

theorem byte_block_append_zero (a b : List Nat) (h : a.length = 8) :
    byte_block (a ++ b) 0 = a := by
  unfold byte_block
  rw [Nat.mul_zero, List.drop_zero, ← h, List.take_left]

theorem byte_block_append_succ (a b : List Nat) (h : a.length = 8) (j : Nat) :
    byte_block (a ++ b) (j + 1) = byte_block b j := by
  unfold byte_block
  rw [show 8 * (j + 1) = a.length + 8 * j from by rw [h]; ring, List.drop_append]

theorem byte_block_drop8 (l : List Nat) (j : Nat) :
    byte_block (l.drop 8) j = byte_block l (j + 1) := by
  unfold byte_block
  rw [List.drop_drop]
  congr 2
  ring

/-- The stream loop invariant: over `n` whole blocks, output block `i` is the
block decryption of ciphertext block `i` XORed with the ciphertext block
`i - 1` (or the incoming IV for `i = 0`), and the final IV is the last
ciphertext block consumed. -/
theorem tea1_stream_go_spec (n : Nat) :
    ∀ (ctx : tea1_context_t) (input : List Nat), ctx.iv.length = 8 → 8 * n ≤ input.length →
      (tea1_decrypt_stream_go n ctx input).1.length = 8 * n ∧
      (∀ i, i < n →
        byte_block (tea1_decrypt_stream_go n ctx input).1 i =
          xor_bytes (tea1_decrypt_block ctx (byte_block input i))
            (if i = 0 then ctx.iv else byte_block input (i - 1))) ∧
      (tea1_decrypt_stream_go n ctx input).2 =
        (if n = 0 then ctx else { ctx with iv := byte_block input (n - 1) }) := by
  induction n with
  | zero =>
    intro ctx input hiv hlen
    refine ⟨by simp [tea1_decrypt_stream_go], ?_, by simp [tea1_decrypt_stream_go]⟩
    intro i hi
    exact absurd hi (Nat.not_lt_zero i)
  | succ m ih =>
    intro ctx input hiv hlen
    have h8 : 8 ≤ input.length := by omega
    have hblk : (input.take 8).length = 8 := by
      simp [List.length_take]
      omega
    have hdrop : 8 * m ≤ (input.drop 8).length := by
      simp [List.length_drop]
      omega
    obtain ⟨ihlen, ihblk, ihctx⟩ := ih { ctx with iv := input.take 8 } (input.drop 8) hblk hdrop
    have hout_len : (xor_bytes (tea1_decrypt_block ctx (input.take 8)) ctx.iv).length = 8 := by
      simp [xor_bytes_length, tea1_decrypt_block_length, hiv]
    simp only [tea1_decrypt_stream_go]
    refine ⟨?_, ?_, ?_⟩
    · simp only [List.length_append, hout_len, ihlen]
      omega
    · intro i hi
      cases i with
      | zero =>
        rw [byte_block_append_zero _ _ hout_len, byte_block_zero, if_pos rfl]
      | succ j =>
        have hj : j < m := by omega
        have hstep := ihblk j hj
        rw [byte_block_append_succ _ _ hout_len j, hstep, tea1_decrypt_block_iv,
          byte_block_drop8]
        cases j with
        | zero =>
          rw [if_pos rfl, if_neg (Nat.succ_ne_zero 0)]
          simp [byte_block_zero]
        | succ j' =>
          rw [if_neg (Nat.succ_ne_zero j'), if_neg (Nat.succ_ne_zero (j' + 1))]
          simp [byte_block_drop8]
    · rw [ihctx]
      by_cases hm : m = 0
      · subst hm
        simp [byte_block_zero]
      · rw [if_neg hm, if_neg (Nat.succ_ne_zero m)]
        obtain ⟨m', rfl⟩ : ∃ m', m = m' + 1 := ⟨m - 1, by omega⟩
        rw [show m' + 1 - 1 = m' from rfl, byte_block_drop8]
        simp

/-- Claim C2: from a freshly initialised context (all-zero IV),
`tea1_decrypt_stream` emits exactly `len / 8` whole blocks; output block i is
the block decryption of ciphertext block i XORed with the chained IV
(`IV_0 = 0`, `IV_{i+1} = C_i`), and afterwards the context IV equals the last
processed ciphertext block. -/
theorem claim_C2 (key : List Nat) (vuln : Bool) (input : List Nat) :
    (tea1_decrypt_stream (tea1_init key vuln) input).1.length = 8 * (input.length / 8) ∧
    (∀ i, i < input.length / 8 →
      byte_block (tea1_decrypt_stream (tea1_init key vuln) input).1 i =
        xor_bytes (tea1_decrypt_block (tea1_init key vuln) (byte_block input i))
          (if i = 0 then List.replicate 8 0 else byte_block input (i - 1))) ∧
    (1 ≤ input.length / 8 →
      (tea1_decrypt_stream (tea1_init key vuln) input).2.iv =
        byte_block input (input.length / 8 - 1)) := by
  have hiv : (tea1_init key vuln).iv.length = 8 := by simp [tea1_init]
  have hlen : 8 * (input.length / 8) ≤ input.length := by
    have := Nat.div_mul_le_self input.length 8
    omega
  obtain ⟨h1, h2, h3⟩ :=
    tea1_stream_go_spec (input.length / 8) (tea1_init key vuln) input hiv hlen
  refine ⟨h1, ?_, ?_⟩
  · intro i hi
    have := h2 i hi
    rwa [show (tea1_init key vuln).iv = List.replicate 8 0 from rfl] at this
  · intro hge
    rw [show (tea1_decrypt_stream (tea1_init key vuln) input) =
      tea1_decrypt_stream_go (input.length / 8) (tea1_init key vuln) input from rfl, h3]
    rw [if_neg (by omega)]

/-- Witness for claim C2 on a 16-byte input under a concrete key. -/
theorem claim_C2_witness :
    byte_block (tea1_decrypt_stream (tea1_init (List.replicate 10 7) true) (List.range 16)).1 1 =
      xor_bytes
        (tea1_decrypt_block (tea1_init (List.replicate 10 7) true) (byte_block (List.range 16) 1))
        (byte_block (List.range 16) 0) ∧
    (tea1_decrypt_stream (tea1_init (List.replicate 10 7) true) (List.range 16)).2.iv =
      byte_block (List.range 16) 1 := by
  constructor
  · have h := (claim_C2 (List.replicate 10 7) true (List.range 16)).2.1 1 (by decide)
    simpa using h
  · exact (claim_C2 (List.replicate 10 7) true (List.range 16)).2.2 (by decide)

/-! ### Claim C4 -/

theorem burst_matches_le (bits : List Nat) (o : Nat) : burst_matches bits o ≤ 22 := by
  unfold burst_matches
  have h := List.countP_le_length
    (p := fun i => bits.getD (o + i) 0 == TETRA_TRAINING_SEQ.getD i 0) (l := List.range 22)
  simpa using h

theorem burst_matches_eq_22 (bits : List Nat) (o : Nat)
    (h : ∀ i, i < 22 → bits.getD (o + i) 0 = TETRA_TRAINING_SEQ.getD i 0) :
    burst_matches bits o = 22 := by
  unfold burst_matches
  rw [List.countP_eq_length.mpr]
  · simp
  · intro a ha
    simp only [List.mem_range] at ha
    simp only [beq_iff_eq]
    exact h a ha

theorem burst_correlation_eq_one (bits : List Nat) (o : Nat)
    (h : burst_matches bits o = 22) : burst_correlation bits o = 1 := by
  unfold burst_correlation
  rw [h]
  norm_num

/-- If every offset strictly before the last examined one has fewer than 20
matches and the last examined offset matches the training sequence exactly,
the scan strong-accepts there. -/
theorem burst_scan_strong (bits : List Nat) (pow : Rat) (now : Nat)
    (st : detection_status_t) (hL : 23 ≤ bits.length)
    (hlast : burst_matches bits (bits.length - 23) = 22)
    (hsmall : ∀ o, o < bits.length - 23 → burst_matches bits o < 20) :
    ∀ rem o best_m best_o best_c, o + rem = bits.length - 22 → o ≤ bits.length - 23 →
      burst_scan bits detection_params_defaults pow now st o rem best_m best_o best_c =
        (true, burst_status_accept st 22 1 ((bits.length - 23 : Nat) : Int) now) := by
  intro rem
  induction rem with
  | zero =>
    intro o best_m best_o best_c h1 h2
    omega
  | succ n ih =>
    intro o best_m best_o best_c h1 h2
    by_cases ho : o = bits.length - 23
    · subst ho
      unfold burst_scan
      rw [if_pos]
      · rw [hlast, burst_correlation_eq_one bits _ hlast]
      · refine ⟨?_, ?_⟩
        · rw [hlast]
          simp [detection_params_defaults]
        · rw [burst_correlation_eq_one bits _ hlast]
          simp [detection_params_defaults]
          norm_num
    · have holt : o < bits.length - 23 := by omega
      have hm := hsmall o holt
      unfold burst_scan
      rw [if_neg]
      · exact ih (o + 1) _ _ _ (by omega) (by omega)
      · intro hcon
        have h20 : ((burst_matches bits o : Int)) ≥ 20 := by
          simpa [detection_params_defaults] using hcon.1
        omega

/-- Claim C4 as amended: the detector examines offsets `0 <= o < L - 22`
(equivalently `o <= L - 23`), not `o <= L - 22`.  For every buffer (length in
[23, 510]) with adequate signal power whose 22 bits at offset exactly `L - 23`
equal the training sequence, and with no earlier offset reaching the strong
match threshold, `tetra_detect_burst` strong-accepts and records offset
`L - 23` with 22/22 matches and correlation 1. -/
theorem claim_C4_amended (bits : List Nat) (pow : Rat) (st : detection_status_t) (now : Nat)
    (h1 : 23 ≤ bits.length) (h2 : bits.length ≤ 510)
    (h3 : detection_params_defaults.min_signal_power ≤ pow)
    (h4 : ∀ i, i < 22 → bits.getD (bits.length - 23 + i) 0 = TETRA_TRAINING_SEQ.getD i 0)
    (h5 : ∀ o, o < bits.length - 23 → burst_matches bits o < 20) :
    tetra_detect_burst bits pow detection_params_defaults st now =
      (true, burst_status_accept { st with current_signal_power := pow } 22 1
        ((bits.length - 23 : Nat) : Int) now) := by
  simp only [tetra_detect_burst]
  rw [if_neg (by omega), if_neg (not_lt.mpr h3)]
  exact burst_scan_strong bits pow now _ h1 (burst_matches_eq_22 bits _ h4) h5
    (bits.length - 22) 0 0 (-1) 0 (by omega) (by omega)

/-- Counterexample for claim C4 as stated: a 22-bit buffer that is exactly the
training sequence (so the training sequence sits at offset `L - 22 = 0`, with
signal power 10 above the default threshold) is rejected, because the offset
loop `offset < bit_count - 22` never examines offset `L - 22`. -/
theorem claim_C4_counterexample :
    (tetra_detect_burst TETRA_TRAINING_SEQ 10 detection_params_defaults
      detection_status_reset 0).1 = false ∧
    TETRA_TRAINING_SEQ.length = 22 ∧
    burst_matches TETRA_TRAINING_SEQ (TETRA_TRAINING_SEQ.length - 22) = 22 ∧
    detection_params_defaults.min_signal_power ≤ 10 := by
  refine ⟨?_, by decide, by decide, by norm_num [detection_params_defaults]⟩
  have hlen : TETRA_TRAINING_SEQ.length = 22 := by decide
  simp only [tetra_detect_burst, hlen]
  rw [if_neg (by omega), if_neg (by norm_num [detection_params_defaults])]
  rw [show (22 : Nat) - 22 = 0 from rfl]
  unfold burst_scan
  rw [if_neg (by
    intro hcon
    have h0 := hcon.1
    simp [detection_params_defaults] at h0)]

/-- Witness for claim C4: a 23-bit buffer holding the training sequence at
offset 0 = L - 23 is strong-accepted with that offset recorded. -/
theorem claim_C4_witness :
    tetra_detect_burst (TETRA_TRAINING_SEQ ++ [0]) 10 detection_params_defaults
        detection_status_reset 7 =
      (true, burst_status_accept
        { detection_status_reset with current_signal_power := 10 } 22 1 0 7) := by
  have h := claim_C4_amended (TETRA_TRAINING_SEQ ++ [0]) 10 detection_status_reset 7
    (by decide) (by decide) (by norm_num [detection_params_defaults])
    (by decide)
    (by
      intro o ho
      simp [TETRA_TRAINING_SEQ] at ho)
  simpa [TETRA_TRAINING_SEQ] using h

/-! ### Claim C6 -/

theorem lpc_go_length (coeffs exc : List Rat) :
    ∀ fuel rev, (lpc_synthesis_go coeffs exc fuel rev).length = fuel + rev.length := by
  intro fuel
  induction fuel with
  | zero => intro rev; simp [lpc_synthesis_go]
  | succ f ih =>
    intro rev
    simp only [lpc_synthesis_go]
    rw [ih]
    simp
    omega

theorem lpc_go_reverse_append (coeffs exc : List Rat) :
    ∀ fuel rev, ∃ t, (lpc_synthesis_go coeffs exc fuel rev).reverse = rev.reverse ++ t := by
  intro fuel
  induction fuel with
  | zero => intro rev; exact ⟨[], by simp [lpc_synthesis_go]⟩
  | succ f ih =>
    intro rev
    simp only [lpc_synthesis_go]
    obtain ⟨t, ht⟩ := ih
      (lpc_clamp (exc.getD rev.length 0 + lpc_prediction coeffs rev) :: rev)
    refine ⟨lpc_clamp (exc.getD rev.length 0 + lpc_prediction coeffs rev) :: t, ?_⟩
    rw [ht]
    simp

theorem getD_reverse (l : List Rat) (i : Nat) (h : i < l.length) (d : Rat) :
    l.reverse.getD i d = l.getD (l.length - 1 - i) d := by
  rw [List.getD_eq_getElem _ _ (by simpa using h), List.getD_eq_getElem _ _ (by omega)]
  exact List.getElem_reverse ..

theorem foldl_add_map_sum2 (f : Nat → Rat) (l : List Nat) (a : Rat) :
    l.foldl (fun acc k => acc + f k) a = a + (l.map f).sum := by
  induction l generalizing a with
  | nil => simp
  | cons x xs ih => simp [ih, add_assoc]

/-- The inner prediction loop, rewritten as the sum the specification uses:
`rev` holds the outputs most recent first, and `rev.reverse ++ tail` is any
extension of the produced prefix. -/
theorem lpc_prediction_eq (coeffs rev tail : List Rat) :
    lpc_prediction coeffs rev =
      ((List.range 10).map (fun k => coeffs.getD k 0 *
        (if k + 1 ≤ rev.length then (rev.reverse ++ tail).getD (rev.length - k - 1) 0
         else 0))).sum := by
  unfold lpc_prediction
  rw [foldl_add_map_sum2 (fun k => coeffs.getD k 0 *
    (if (rev.length : Int) - k - 1 ≥ 0 then rev.getD k 0
     else lpc_state_val (9 + ((rev.length : Int) - k - 1)))) (List.range 10) 0]
  rw [zero_add]
  congr 1
  apply List.map_congr_left
  intro k hk
  simp only [List.mem_range] at hk
  by_cases hkn : k + 1 ≤ rev.length
  · rw [if_pos hkn, if_pos (by omega)]
    congr 1
    rw [List.getD_append _ _ _ _ (by simp; omega)]
    rw [getD_reverse rev _ (by omega)]
    congr 1
    omega
  · rw [if_neg hkn, if_neg (by omega)]
    simp [lpc_state_val]

theorem lpc_go_recurrence (coeffs exc : List Rat) :
    ∀ fuel rev,
      (∀ j, j < rev.length →
        lpc_recurrence coeffs exc (lpc_synthesis_go coeffs exc fuel rev).reverse j) →
      ∀ n, n < rev.length + fuel →
        lpc_recurrence coeffs exc (lpc_synthesis_go coeffs exc fuel rev).reverse n := by
  intro fuel
  induction fuel with
  | zero =>
    intro rev h n hn
    exact h n (by simpa using hn)
  | succ f ih =>
    intro rev h n hn
    simp only [lpc_synthesis_go] at h ⊢
    set y := lpc_clamp (exc.getD rev.length 0 + lpc_prediction coeffs rev) with hy
    apply ih (y :: rev) ?_ n (by simp only [List.length_cons]; omega)
    intro j hj
    simp only [List.length_cons] at hj
    rcases Nat.lt_or_ge j rev.length with hjlt | hjge
    · exact h j hjlt
    · have hjeq : j = rev.length := by omega
      subst hjeq
      obtain ⟨t, ht⟩ := lpc_go_reverse_append coeffs exc f (y :: rev)
      unfold lpc_recurrence
      rw [ht, List.reverse_cons, List.append_assoc]
      rw [List.getD_append_right _ _ _ _ (by simp)]
      have hidx : ([y] ++ t).getD (rev.length - rev.reverse.length) 0 = y := by simp
      rw [hidx]
      rw [← lpc_prediction_eq coeffs rev ([y] ++ t)]

/-- Claim C6 as amended: every output of `lpc_synthesis` over a 160-sample
frame is the clamped sum of the excitation and the 10-tap prediction, where
terms with `n - k - 1 < 0` substitute zero (the zero-initialised local state
array), not previous-frame output samples. -/
theorem claim_C6_amended (coeffs exc : List Rat) :
    (lpc_synthesis coeffs exc 160).length = 160 ∧
    ∀ n, n < 160 → lpc_recurrence coeffs exc (lpc_synthesis coeffs exc 160) n := by
  constructor
  · simp [lpc_synthesis, lpc_go_length]
  · intro n hn
    have h := lpc_go_recurrence coeffs exc 160 []
      (by intro j hj; exact absurd hj (by simp)) n (by simpa using hn)
    exact h

theorem c6_prev_getD_159 : c6_prev.getD 159 0 = 1 := by
  unfold c6_prev
  rw [List.getD_append_right _ _ _ _ (by simp)]
  simp

theorem c6_prev_getElem_159 : c6_prev[159]?.getD 0 = (1 : Rat) := by
  have h := c6_prev_getD_159
  simpa [List.getD] using h

/-- Counterexample for claim C6 as stated: with coefficients (1, 0, ..., 0),
zero excitation and a previous frame ending in 1, the code output violates the
previous-frame-substitution recurrence at n = 0 (the code reads the local zero
state and outputs 0; the claimed formula yields 1). -/
theorem claim_C6_counterexample :
    ¬ lpc_recurrence_prev c6_coeffs c6_exc c6_prev (lpc_synthesis c6_coeffs c6_exc 160) 0 := by
  have h0 := lpc_go_recurrence c6_coeffs c6_exc 160 []
    (by intro j hj; exact absurd hj (by simp)) 0 (by simp)
  have hy0 : (lpc_synthesis c6_coeffs c6_exc 160).getD 0 0 = 0 := by
    unfold lpc_recurrence at h0
    rw [show lpc_synthesis c6_coeffs c6_exc 160 =
      (lpc_synthesis_go c6_coeffs c6_exc 160 []).reverse from rfl]
    rw [h0]
    norm_num [c6_exc, lpc_clamp]
  unfold lpc_recurrence_prev
  rw [hy0]
  rw [show List.range 10 = [0, 1, 2, 3, 4, 5, 6, 7, 8, 9] from by decide]
  simp only [List.map_cons, List.map_nil, List.sum_cons, List.sum_nil]
  norm_num [c6_coeffs, c6_exc, c6_prev_getElem_159, lpc_clamp]

/-- Witness for claim C6 at concrete coefficients, excitation and samples 0
and 159. -/
theorem claim_C6_witness :
    lpc_recurrence c6_coeffs c6_exc (lpc_synthesis c6_coeffs c6_exc 160) 0 ∧
    lpc_recurrence c6_coeffs c6_exc (lpc_synthesis c6_coeffs c6_exc 160) 159 :=
  ⟨(claim_C6_amended c6_coeffs c6_exc).2 0 (by omega),
   (claim_C6_amended c6_coeffs c6_exc).2 159 (by omega)⟩

/-! ### Claim C7 -/

theorem audio_ring_valid_push (p : audio_playback_t) (h : audio_ring_valid p) (x : Int) :
    audio_ring_valid (audio_ring_push p x) := by
  obtain ⟨hs, hw, hr⟩ := h
  simp only [audio_ring_push]
  split
  · exact ⟨hs, by simp [hs]; omega, by simp [hs]; omega⟩
  · exact ⟨hs, by simp [hs]; omega, hr⟩

theorem audio_ring_available_le (p : audio_playback_t) (h : audio_ring_valid p) :
    audio_ring_available p ≤ 32767 := by
  obtain ⟨hs, hw, hr⟩ := h
  unfold audio_ring_available
  split <;> omega

theorem audio_ring_contents_length (p : audio_playback_t) :
    (audio_ring_contents p).length = audio_ring_available p := by
  simp [audio_ring_contents]

/-- Core step: one push appends the sample and, exactly when the ring already
held 32767 readable samples, drops the oldest. -/
theorem audio_ring_push_contents (p : audio_playback_t) (h : audio_ring_valid p) (x : Int) :
    audio_ring_contents (audio_ring_push p x) =
      (if audio_ring_available p = 32767 then (audio_ring_contents p).tail
       else audio_ring_contents p) ++ [x] := by
  obtain ⟨hs, hw, hr⟩ := h
  by_cases hc : (p.ring_write_pos + 1) % p.ring_size = p.ring_read_pos
  · -- collision: the ring was full
    have havail : audio_ring_available p = 32767 := by
      unfold audio_ring_available
      rw [hs] at hc ⊢
      split <;> omega
    rw [if_pos havail]
    unfold audio_ring_contents
    simp only [audio_ring_push, if_pos hc]
    have havail' : audio_ring_available
        { ring_buffer := fun j => if j = p.ring_write_pos then x else p.ring_buffer j,
          ring_write_pos := (p.ring_write_pos + 1) % p.ring_size,
          ring_read_pos := (p.ring_read_pos + 1) % p.ring_size,
          ring_size := p.ring_size } = 32767 := by
      unfold audio_ring_available
      simp only [hs] at hc ⊢
      split <;> omega
    apply List.ext_getElem
    · rw [List.length_append, List.length_map, List.length_range, havail',
        List.length_tail, List.length_map, List.length_range, havail]
      simp
    · intro i h1 h2
      rw [List.length_map, List.length_range, havail'] at h1
      rw [List.getElem_map, List.getElem_range]
      simp only [hs] at hc ⊢
      by_cases hi : i < 32766
      · rw [List.getElem_append_left (by
          rw [List.length_tail, List.length_map, List.length_range, havail]
          omega)]
        rw [List.getElem_tail]
        rw [List.getElem_map, List.getElem_range]
        have hne : ((p.ring_read_pos + 1) % 32768 + i) % 32768 ≠ p.ring_write_pos := by
          omega
        rw [if_neg hne]
        congr 1
        omega
      · have hieq : i = 32766 := by omega
        subst hieq
        rw [List.getElem_append_right (by
          rw [List.length_tail, List.length_map, List.length_range, havail])]
        have heq : ((p.ring_read_pos + 1) % 32768 + 32766) % 32768 = p.ring_write_pos := by
          omega
        rw [if_pos heq]
        exact (List.getElem_singleton ..).symm
  · -- no collision: plain append
    have havail : audio_ring_available p ≠ 32767 := by
      unfold audio_ring_available
      rw [hs] at hc ⊢
      split <;> omega
    rw [if_neg havail]
    unfold audio_ring_contents
    simp only [audio_ring_push, if_neg hc]
    have havail2 : audio_ring_available
        { p with
          ring_buffer := fun j => if j = p.ring_write_pos then x else p.ring_buffer j,
          ring_write_pos := (p.ring_write_pos + 1) % p.ring_size } =
        audio_ring_available p + 1 := by
      unfold audio_ring_available
      simp only [hs] at hc ⊢
      split <;> split <;> omega
    apply List.ext_getElem
    · rw [List.length_append, List.length_map, List.length_range, havail2,
        List.length_map, List.length_range]
      simp
    · intro i h1 h2
      rw [List.length_map, List.length_range, havail2] at h1
      rw [List.getElem_map, List.getElem_range]
      simp only [hs] at hc ⊢
      by_cases hi : i < audio_ring_available p
      · rw [List.getElem_append_left (by
          rw [List.length_map, List.length_range]
          exact hi)]
        rw [List.getElem_map, List.getElem_range]
        have hne : (p.ring_read_pos + i) % 32768 ≠ p.ring_write_pos := by
          unfold audio_ring_available at hi
          rw [hs] at hi
          split at hi <;> omega
        rw [if_neg hne]
      · have hieq : i = audio_ring_available p := by omega
        rw [List.getElem_append_right (by
          rw [List.length_map, List.length_range]
          omega)]
        have heq : (p.ring_read_pos + i) % 32768 = p.ring_write_pos := by
          subst hieq
          unfold audio_ring_available
          rw [hs]
          split <;> omega
        rw [if_pos heq]
        exact (List.getElem_singleton ..).symm

/-- Folding the push over a list of samples: the readable contents are the last
(at most 32767) samples of the old contents followed by the written ones. -/
theorem audio_playback_write_contents :
    ∀ (ws : List Int) (p : audio_playback_t), audio_ring_valid p →
      audio_ring_contents (audio_playback_write p ws) =
        ((audio_ring_contents p) ++ ws).drop
          ((audio_ring_contents p).length + ws.length - 32767) := by
  intro ws
  induction ws with
  | nil =>
    intro p hv
    have hle := audio_ring_available_le p hv
    simp only [audio_playback_write, List.foldl_nil, List.append_nil, List.length_nil,
      Nat.add_zero]
    rw [show (audio_ring_contents p).length - 32767 = 0 from by
      rw [audio_ring_contents_length]; omega]
    rw [List.drop_zero]
  | cons y ys ih =>
    intro p hv
    have hv' := audio_ring_valid_push p hv y
    have hstep := audio_ring_push_contents p hv y
    show audio_ring_contents (audio_playback_write (audio_ring_push p y) ys) = _
    rw [ih (audio_ring_push p y) hv']
    rw [hstep]
    by_cases hfull : audio_ring_available p = 32767
    · rw [if_pos hfull] at hstep ⊢
      have hlen : (audio_ring_contents p).length = 32767 := by
        rw [audio_ring_contents_length, hfull]
      obtain ⟨c, cs', hcs⟩ : ∃ c cs', audio_ring_contents p = c :: cs' := by
        cases hcl : audio_ring_contents p with
        | nil => rw [hcl] at hlen; simp at hlen
        | cons a b => exact ⟨a, b, rfl⟩
      have hcs' : cs'.length = 32766 := by
        rw [hcs] at hlen
        simp at hlen
        omega
      rw [hcs]
      simp only [List.tail_cons, List.cons_append, List.length_append, List.length_cons,
        List.length_tail, List.singleton_append, hcs', List.length_nil]
      rw [show 32766 + (0 + 1) + ys.length - 32767 = ys.length from by omega]
      rw [show 32766 + 1 + (ys.length + 1) - 32767 = ys.length + 1 from by omega]
      rw [List.drop_succ_cons]
      rw [List.append_assoc]
      simp only [List.singleton_append]
    · rw [if_neg hfull]
      have hle := audio_ring_available_le p hv
      have hlt : (audio_ring_contents p).length < 32767 := by
        rw [audio_ring_contents_length]
        omega
      rw [List.append_assoc]
      simp only [List.singleton_append, List.length_append, List.length_cons,
        List.length_singleton]
      rw [show (audio_ring_contents p).length + (List.length ([] : List Int) + 1) +
          ys.length - 32767 =
        (audio_ring_contents p).length + (ys.length + 1) - 32767 from by
          simp only [List.length_nil]
          omega]

theorem audio_playback_init_valid : audio_ring_valid audio_playback_init := by
  refine ⟨by norm_num [audio_playback_init, AUDIO_RING_BUFFER_SIZE], ?_, ?_⟩ <;>
    norm_num [audio_playback_init, AUDIO_RING_BUFFER_SIZE]

theorem audio_ring_contents_init : audio_ring_contents audio_playback_init = [] := by
  simp [audio_ring_contents, audio_ring_available, audio_playback_init]

/-- Claim C7 as amended: starting from the empty ring, after writing any
sequence of samples the consumer can read back exactly the most recent
`capacity - 1 = 32767` of them, in order (for `total_written <= 32767` that is
all of them, none dropped); and a sequence of write calls equals one write of
the concatenation. -/
theorem claim_C7_amended :
    (∀ ws : List Int,
      audio_ring_contents (audio_playback_write audio_playback_init ws) =
        ws.drop (ws.length - 32767)) ∧
    (∀ (p : audio_playback_t) (ws1 ws2 : List Int),
      audio_playback_write p (ws1 ++ ws2) =
        audio_playback_write (audio_playback_write p ws1) ws2) := by
  constructor
  · intro ws
    have h := audio_playback_write_contents ws audio_playback_init audio_playback_init_valid
    rw [audio_ring_contents_init] at h
    simpa using h
  · intro p ws1 ws2
    simp [audio_playback_write, List.foldl_append]

/-- Counterexample for claim C7 as stated: writing exactly
`capacity = AUDIO_RING_BUFFER_SIZE = 32768` samples into the empty ring does
not let the consumer read back all of them - the overwrite-on-collision in
`audio_playback_write` drops the oldest sample, leaving 32767 readable. -/
theorem claim_C7_counterexample :
    AUDIO_RING_BUFFER_SIZE = 32768 ∧
    audio_ring_contents (audio_playback_write audio_playback_init (List.replicate 32768 1)) ≠
      List.replicate 32768 (1 : Int) := by
  refine ⟨rfl, ?_⟩
  have h := audio_playback_write_contents (List.replicate 32768 1) audio_playback_init
    audio_playback_init_valid
  rw [audio_ring_contents_init] at h
  have hlen : (audio_ring_contents (audio_playback_write audio_playback_init
      (List.replicate 32768 1))).length = 32767 := by
    rw [h, List.nil_append, List.length_drop, List.length_replicate, List.length_nil]
  intro hEq
  rw [hEq, List.length_replicate] at hlen
  exact absurd hlen (by norm_num)
